import Mathlib

/-!
Shallow embedding of the resiliency client in src/client.py:
the circuit breaker state machine (class CircuitBreaker), the
exponential-backoff retry wrapper (exponential_backoff_retry), the
load-shedding gate and the tiered ECommerceApp methods.

Timestamps and delays are modelled as rationals (Python floats from
time.time / random.uniform); HTTP responses are modelled by their status
code; a call to the transport either returns a status or raises an
exception, modelled as Except Exc Nat.
-/

set_option autoImplicit false

deriving instance DecidableEq for Except

/-- Python exceptions that occur in src/client.py.
`circuitOpen` is Exception "CircuitBreaker is OPEN" (line 30);
`serverError s` is Exception "Server Error {s}" (line 35);
`timeout` is requests.exceptions.Timeout;
`transportError` is any other requests.exceptions.RequestException;
`typeError` is the TypeError Python would raise on line 25 when
`last_failure_time` is None;
`retryExhausted` models the spec's RetryExhaustedError wrapper: the code in
src/client.py never raises it (line 68 re-raises the bare last exception),
it exists here only so that the spec's claimed behavior can be stated. -/
inductive Exc where
  | circuitOpen : Exc
  | serverError (status : Nat) : Exc
  | timeout : Exc
  | transportError : Exc
  | typeError : Exc
  | retryExhausted (cause : Exc) : Exc
deriving DecidableEq, Repr

/-- The three string states of the breaker (client.py lines 20, 27, 39, 49). -/
inductive BreakerState where
  | CLOSED : BreakerState
  | OPEN : BreakerState
  | HALF_OPEN : BreakerState
deriving DecidableEq, Repr

/-- class CircuitBreaker, fields of __init__ (client.py lines 16-21). -/
structure CircuitBreaker where
  failure_threshold : Nat
  recovery_timeout : ℚ
  failure_count : Nat
  state : BreakerState
  last_failure_time : Option ℚ
deriving DecidableEq, Repr

/-- CircuitBreaker.__init__ with failure_count = 0, state = CLOSED,
last_failure_time = None (client.py lines 19-21). -/
def initBreaker (ft : Nat) (rt : ℚ) : CircuitBreaker :=
  ⟨ft, rt, 0, .CLOSED, none⟩

/-- The OPEN gate at the top of CircuitBreaker.call (client.py lines 24-30):
when the state is OPEN, either transition to HALF_OPEN (elapsed time
strictly greater than recovery_timeout) and proceed, or fail fast with
the CircuitBreaker-is-OPEN exception. When last_failure_time is None the
subtraction on line 25 would raise a TypeError. -/
def cbGate (cb : CircuitBreaker) (now : ℚ) : Except Exc CircuitBreaker :=
  if cb.state = .OPEN then
    match cb.last_failure_time with
    | none => .error .typeError
    | some t =>
      if now - t > cb.recovery_timeout then
        .ok { cb with state := .HALF_OPEN }
      else
        .error .circuitOpen
  else
    .ok cb

/-- The except-branch of CircuitBreaker.call (client.py lines 42-49):
increment failure_count, stamp last_failure_time, trip to OPEN once the
threshold is reached. -/
def recordFailure (cb : CircuitBreaker) (now : ℚ) : CircuitBreaker :=
  let fc := cb.failure_count + 1
  { cb with
      failure_count := fc
      last_failure_time := some now
      state := if cb.failure_threshold ≤ fc then .OPEN else cb.state }

/-- The try-block of CircuitBreaker.call (client.py lines 32-51): invoke the
operation; a status ≥ 500 raises a ServerError which, like a transport
exception from the operation, is caught, recorded as a failure and
re-raised; a status < 500 resets failure_count to 0 and closes the breaker. -/
def cbAttempt (cb : CircuitBreaker) (now : ℚ) (op : Except Exc Nat) :
    Except Exc Nat × CircuitBreaker :=
  match op with
  | .ok status =>
    if 500 ≤ status then
      (.error (.serverError status), recordFailure cb now)
    else
      (.ok status, { cb with failure_count := 0, state := .CLOSED })
  | .error e => (.error e, recordFailure cb now)

/-- CircuitBreaker.call (client.py lines 23-51). `op` is the outcome the
underlying operation would have if invoked. The third component records
whether the underlying operation was actually invoked. -/
def cbCall (cb : CircuitBreaker) (now : ℚ) (op : Except Exc Nat) :
    Except Exc Nat × CircuitBreaker × Bool :=
  match cbGate cb now with
  | .error e => (.error e, cb, false)
  | .ok cb1 =>
    let r := cbAttempt cb1 now op
    (r.1, r.2, true)

/-- An operation outcome counts as a failure for the breaker when it raises,
or when it returns a status ≥ 500 (client.py line 34). -/
def cbFailed (op : Except Exc Nat) : Bool :=
  match op with
  | .ok status => 500 ≤ status
  | .error _ => true

/-- The exception CircuitBreaker.call re-raises for a failing outcome:
the synthetic ServerError for a status ≥ 500, otherwise the operation's
own exception (client.py lines 35 and 51). -/
def failExc (op : Except Exc Nat) : Exc :=
  match op with
  | .ok status => .serverError status
  | .error e => e

/-- A sequence of CircuitBreaker.call invocations, each given by its wall
time and the outcome the underlying operation would have; returns the
breaker state left behind. -/
def cbRun (cb : CircuitBreaker) : List (ℚ × Except Exc Nat) → CircuitBreaker
  | [] => cb
  | c :: rest => cbRun (cbCall cb c.1 c.2).2.1 rest

/-- The breaker states reachable from a freshly constructed
CircuitBreaker(ft, rt) by any sequence of call invocations. -/
inductive Reachable (ft : Nat) (rt : ℚ) : CircuitBreaker → Prop where
  | init : Reachable ft rt (initBreaker ft rt)
  | step (cb : CircuitBreaker) (now : ℚ) (op : Except Exc Nat) :
      Reachable ft rt cb → Reachable ft rt (cbCall cb now op).2.1

/-- The exceptions caught by the retry wrapper's except clause
(client.py line 64): requests.exceptions.Timeout and
requests.exceptions.RequestException. -/
def retryable (e : Exc) : Bool :=
  match e with
  | .timeout => true
  | .transportError => true
  | _ => false

/-- The while-loop of exponential_backoff_retry's wrapper (client.py lines
59-76). `attempt` is the current value of `retries`, `left` the number of
invocations still allowed (max_retries + 1 - attempt); `op i` is the outcome
of the i-th invocation of func. Returns the wrapper's result together with
how many times func was invoked. The `left = 0` case is never reached:
retryExec always starts with left = max_retries + 1 ≥ 1, and recursion stops
one step earlier. -/
def retryGo {α : Type} (op : Nat → Except Exc α) (attempt : Nat) :
    Nat → Except Exc α × Nat
  | 0 => (.error .timeout, 0)
  | left + 1 =>
    match op attempt with
    | .ok a => (.ok a, 1)
    | .error e =>
      if retryable e then
        match left with
        | 0 => (.error e, 1)
        | l + 1 =>
          let r := retryGo op (attempt + 1) (l + 1)
          (r.1, r.2 + 1)
      else
        (.error e, 1)

/-- exponential_backoff_retry(max_retries).wrapper applied to an operation
(client.py lines 57-77): result together with the number of invocations. -/
def retryExec {α : Type} (op : Nat → Except Exc α) (max_retries : Nat) :
    Except Exc α × Nat :=
  retryGo op 0 (max_retries + 1)

/-- The delay slept before retry number `retries` (client.py lines 71-73):
min(base_delay * 2^(retries-1), max_delay) plus the jitter drawn from
random.uniform(0, 0.5). -/
def backoffDelay (base_delay max_delay : ℚ) (retries : Nat) (jitter : ℚ) : ℚ :=
  min (base_delay * 2 ^ (retries - 1)) max_delay + jitter

/-- The load-shedding test of load_recommendations (client.py line 117):
shed exactly when the current system load is strictly above 80. -/
def shouldShed (load : Nat) : Bool :=
  80 < load

/-- ECommerceApp state: the tier-2 circuit breaker and the simulated load
metric (client.py lines 84-87). -/
structure App where
  breaker : CircuitBreaker
  system_load : Nat
deriving DecidableEq, Repr

/-- Observable outcome of view_product: the live response was logged, or the
exception was caught and the Tier-1-Failed critical alert logged. -/
inductive T1Result where
  | live (status : Nat) : T1Result
  | criticalAlert : T1Result
deriving DecidableEq, Repr

/-- Observable outcome of load_reviews: live reviews or the cached fallback. -/
inductive T2Result where
  | live (status : Nat) : T2Result
  | fallback : T2Result
deriving DecidableEq, Repr

/-- Observable outcome of load_recommendations: shed under load, live
recommendations, or the gracefully degraded (hidden) area. -/
inductive T3Result where
  | shed : T3Result
  | live (status : Nat) : T3Result
  | degraded : T3Result
deriving DecidableEq, Repr

/-- ECommerceApp.view_product (client.py lines 89-96): a direct call whose
failure is caught and turned into a critical alert. The Except layer records
whether an exception escapes to the caller (none ever does: the except
clause on line 95 catches every Exception). -/
def view_product (op : Except Exc Nat) : Except Exc T1Result :=
  match op with
  | .ok status => .ok (.live status)
  | .error _ => .ok .criticalAlert

/-- ECommerceApp.load_reviews (client.py lines 98-106): route the call
through the circuit breaker; any exception (fail-fast, server error or
transport error) is caught and replaced by the cached fallback. The breaker
mutations made by call survive even when it raises. -/
def load_reviews (app : App) (now : ℚ) (op : Except Exc Nat) :
    Except Exc (T2Result × App) :=
  match cbCall app.breaker now op with
  | (.ok status, cb1, _) => .ok (.live status, { app with breaker := cb1 })
  | (.error _, cb1, _) => .ok (.fallback, { app with breaker := cb1 })

/-- ECommerceApp.load_recommendations (client.py lines 112-125): shed when
the load is above 80 (returning at once, no call attempted), otherwise run
the retry-wrapped fetch (max_retries = 3, line 108) and degrade gracefully
if it raises. Returns the outcome, the app state left behind and the number
of times the underlying operation was invoked. -/
def load_recommendations (app : App) (op : Nat → Except Exc Nat) :
    Except Exc (T3Result × App × Nat) :=
  if shouldShed app.system_load then
    .ok (.shed, app, 0)
  else
    match retryExec op 3 with
    | (.ok status, n) => .ok (.live status, app, n)
    | (.error _, n) => .ok (.degraded, app, n)

/-! ## Helper lemmas about single breaker calls -/

/-- When the breaker is not OPEN, the gate lets the call through unchanged. -/
lemma cbGate_not_open (cb : CircuitBreaker) (now : ℚ) (h : cb.state ≠ .OPEN) :
    cbGate cb now = .ok cb := by
  simp [cbGate, h]

/-- A failing outcome makes the attempt record the failure and re-raise. -/
lemma cbAttempt_fail (cb : CircuitBreaker) (now : ℚ) (op : Except Exc Nat)
    (h : cbFailed op = true) :
    cbAttempt cb now op = (.error (failExc op), recordFailure cb now) := by
  cases op with
  | ok status =>
    have hs : 500 ≤ status := by simpa [cbFailed] using h
    simp [cbAttempt, failExc, hs]
  | error e => rfl

/-- A failing call through a non-OPEN breaker records the failure. -/
lemma cbCall_not_open_fail (cb : CircuitBreaker) (now : ℚ) (op : Except Exc Nat)
    (hst : cb.state ≠ .OPEN) (hf : cbFailed op = true) :
    cbCall cb now op = (.error (failExc op), recordFailure cb now, true) := by
  simp [cbCall, cbGate_not_open cb now hst, cbAttempt_fail cb now op hf]

/-- Running consecutive failing calls on a CLOSED breaker whose counter is
exactly the threshold away from tripping leaves the breaker OPEN, with the
counter at the threshold and the last failure time stamped by the last call. -/
lemma cbRun_trips (calls : List (ℚ × Except Exc Nat)) :
    ∀ cb : CircuitBreaker, cb.state = .CLOSED →
    (∀ c ∈ calls, cbFailed c.2 = true) →
    cb.failure_count + calls.length = cb.failure_threshold →
    calls ≠ [] →
    (cbRun cb calls).state = .OPEN ∧
    (cbRun cb calls).failure_threshold = cb.failure_threshold ∧
    (cbRun cb calls).recovery_timeout = cb.recovery_timeout ∧
    (cbRun cb calls).failure_count = cb.failure_threshold ∧
    (cbRun cb calls).last_failure_time = calls.getLast?.map Prod.fst := by
  induction calls with
  | nil => exact fun cb _ _ _ hne => absurd rfl hne
  | cons c rest ih =>
    intro cb hcl hfail hcount _
    have hst : cb.state ≠ .OPEN := by rw [hcl]; intro h; cases h
    have hf : cbFailed c.2 = true := hfail c (List.mem_cons_self c rest)
    have hstep : (cbCall cb c.1 c.2).2.1 = recordFailure cb c.1 := by
      rw [cbCall_not_open_fail cb c.1 c.2 hst hf]
    have hrun : cbRun cb (c :: rest) = cbRun (recordFailure cb c.1) rest := by
      rw [cbRun, hstep]
    cases rest with
    | nil =>
      have hcount1 : cb.failure_count + 1 = cb.failure_threshold := by
        simpa using hcount
      have hft : cb.failure_threshold ≤ cb.failure_count + 1 := by omega
      rw [hrun]
      refine ⟨?_, ?_, ?_, ?_, ?_⟩ <;> simp [cbRun, recordFailure, hft]
      omega
    | cons c2 rest2 =>
      have hlt : ¬ cb.failure_threshold ≤ cb.failure_count + 1 := by
        simp at hcount; omega
      have hrec : (recordFailure cb c.1).state = .CLOSED := by
        simp [recordFailure, hlt, hcl]
      have hcount2 : (recordFailure cb c.1).failure_count + (c2 :: rest2).length =
          (recordFailure cb c.1).failure_threshold := by
        simp [recordFailure]; simp at hcount; omega
      have hrest := ih (recordFailure cb c.1) hrec
        (fun d hd => hfail d (List.mem_cons_of_mem c hd)) hcount2 (List.cons_ne_nil c2 rest2)
      rw [hrun, List.getLast?_cons_cons]
      exact ⟨hrest.1, hrest.2.1, hrest.2.2.1, hrest.2.2.2.1, hrest.2.2.2.2⟩

/-- C1: a breaker constructed with failureThreshold = N, after N consecutive
failed calls, is OPEN; a further call made while the elapsed time since
lastFailureTime is not greater than recoveryTimeout fails immediately with
CircuitOpenError, the breaker unchanged and the underlying operation not
invoked. -/
theorem c1_breaker_trip_fail_fast (N : Nat) (rt : ℚ) (hN : 0 < N)
    (calls : List (ℚ × Except Exc Nat)) (hlen : calls.length = N)
    (hfail : ∀ c ∈ calls, cbFailed c.2 = true)
    (tN : ℚ) (opN : Except Exc Nat) (hlast : calls.getLast? = some (tN, opN))
    (now : ℚ) (hnow : now - tN ≤ rt) (op2 : Except Exc Nat) :
    (cbRun (initBreaker N rt) calls).state = .OPEN ∧
    cbCall (cbRun (initBreaker N rt) calls) now op2 =
      (.error .circuitOpen, cbRun (initBreaker N rt) calls, false) := by
  have hne : calls ≠ [] := by
    intro h; rw [h] at hlen; simp at hlen; omega
  have h := cbRun_trips calls (initBreaker N rt) rfl hfail (by simp [initBreaker, hlen]) hne
  have hlastt : (cbRun (initBreaker N rt) calls).last_failure_time = some tN := by
    rw [h.2.2.2.2, hlast]; rfl
  have hrt : (cbRun (initBreaker N rt) calls).recovery_timeout = rt := h.2.2.1
  have hnotgt : ¬ now - tN > (cbRun (initBreaker N rt) calls).recovery_timeout := by
    rw [hrt]; exact not_lt.mpr (by linarith)
  have hgate : cbGate (cbRun (initBreaker N rt) calls) now = .error .circuitOpen := by
    simp [cbGate, h.1, hlastt, hnotgt]
  exact ⟨h.1, by rw [cbCall, hgate]⟩

/-- Witness for C1 at N = 1, recoveryTimeout = 10, one transport failure at
time 0 and a fail-fast call at time 3. -/
theorem c1_breaker_trip_fail_fast_witness :
    (cbRun (initBreaker 1 10) [((0 : ℚ), .error .transportError)]).state = .OPEN ∧
    cbCall (cbRun (initBreaker 1 10) [((0 : ℚ), .error .transportError)]) 3 (.ok 200) =
      (.error .circuitOpen, cbRun (initBreaker 1 10) [((0 : ℚ), .error .transportError)], false) :=
  c1_breaker_trip_fail_fast 1 10 (by decide) [((0 : ℚ), .error .transportError)] rfl
    (by decide) 0 (.error .transportError) rfl 3 (by norm_num) (.ok 200)

/-! ## The breaker invariant and reachability -/

/-- Invariant of the breaker state machine: the threshold is the constructor
argument; OPEN implies a stamped failure time; CLOSED keeps the counter
strictly below the threshold; away from CLOSED the counter has reached the
threshold. -/
def BreakerInv (ft : Nat) (cb : CircuitBreaker) : Prop :=
  cb.failure_threshold = ft ∧
  (cb.state = .OPEN → cb.last_failure_time.isSome = true) ∧
  (cb.state = .CLOSED → cb.failure_count < ft) ∧
  (cb.state ≠ .CLOSED → ft ≤ cb.failure_count)

lemma breakerInv_init (ft : Nat) (rt : ℚ) (hft : 0 < ft) :
    BreakerInv ft (initBreaker ft rt) := by
  refine ⟨rfl, ?_, ?_, ?_⟩
  · intro h; simp [initBreaker] at h
  · intro _; exact hft
  · intro h; exact absurd rfl h

/-- Characterization of a gate that lets the call through: either the
breaker was not OPEN and is passed along unchanged, or it was OPEN with an
expired recovery window and is passed along in HALF_OPEN. -/
lemma cbGate_ok (cb : CircuitBreaker) (now : ℚ) (cb1 : CircuitBreaker)
    (h : cbGate cb now = .ok cb1) :
    (cb.state ≠ .OPEN ∧ cb1 = cb) ∨
    (cb.state = .OPEN ∧ cb1 = { cb with state := .HALF_OPEN } ∧
      ∃ t, cb.last_failure_time = some t ∧ cb.recovery_timeout < now - t) := by
  by_cases hst : cb.state = .OPEN
  · cases hl : cb.last_failure_time with
    | none => simp [cbGate, hst, hl] at h
    | some t =>
      by_cases hgt : now - t > cb.recovery_timeout
      · simp [cbGate, hst, hl, hgt] at h
        right
        exact ⟨hst, h.symm, t, rfl, hgt⟩
      · simp [cbGate, hst, hl, hgt] at h
  · left
    simp [cbGate, hst] at h
    exact ⟨hst, h.symm⟩

lemma breakerInv_gate (ft : Nat) (cb : CircuitBreaker) (now : ℚ)
    (cb1 : CircuitBreaker) (hinv : BreakerInv ft cb)
    (h : cbGate cb now = .ok cb1) :
    BreakerInv ft cb1 ∧ cb1.failure_count = cb.failure_count ∧
    cb1.state ≠ .OPEN ∧ (cb1.state = .CLOSED → cb.state = .CLOSED) := by
  rcases cbGate_ok cb now cb1 h with ⟨hst, rfl⟩ | ⟨hst, rfl, _⟩
  · exact ⟨hinv, rfl, hst, fun h => h⟩
  · refine ⟨⟨hinv.1, ?_, ?_, ?_⟩, rfl, ?_, ?_⟩ <;> intro h <;> simp_all
    exact hinv.2.2.2 (by rw [hst]; intro h2; cases h2)

lemma breakerInv_attempt (ft : Nat) (cb1 : CircuitBreaker) (now : ℚ)
    (op : Except Exc Nat) (hft : 0 < ft) (hinv : BreakerInv ft cb1) :
    BreakerInv ft (cbAttempt cb1 now op).2 := by
  have hrec : BreakerInv ft (recordFailure cb1 now) := by
    refine ⟨hinv.1, fun _ => rfl, ?_, ?_⟩ <;>
      simp only [recordFailure] <;> intro h
    · by_cases hcond : cb1.failure_threshold ≤ cb1.failure_count + 1
      · simp [hcond] at h
      · rw [hinv.1] at hcond; omega
    · by_cases hcond : cb1.failure_threshold ≤ cb1.failure_count + 1
      · rw [hinv.1] at hcond; omega
      · simp only [hcond, if_false] at h
        exact Nat.le_succ_of_le (hinv.2.2.2 h)
  cases op with
  | ok status =>
    by_cases hs : 500 ≤ status
    · simpa [cbAttempt, hs] using hrec
    · have hred : (cbAttempt cb1 now (.ok status)).2 =
          { cb1 with failure_count := 0, state := .CLOSED } := by
        simp [cbAttempt, hs]
      rw [hred]
      refine ⟨hinv.1, ?_, ?_, ?_⟩
      · intro h; simp at h
      · intro _; exact hft
      · intro h; exact absurd rfl h
  | error e => simpa [cbAttempt] using hrec

lemma cbCall_of_gate_ok (cb : CircuitBreaker) (now : ℚ) (op : Except Exc Nat)
    (cb1 : CircuitBreaker) (h : cbGate cb now = .ok cb1) :
    cbCall cb now op = ((cbAttempt cb1 now op).1, (cbAttempt cb1 now op).2, true) := by
  simp [cbCall, h]

lemma cbCall_invoked (cb : CircuitBreaker) (now : ℚ) (op : Except Exc Nat)
    (h : (cbCall cb now op).2.2 = true) :
    ∃ cb1, cbGate cb now = .ok cb1 := by
  cases hg : cbGate cb now with
  | error e => rw [cbCall, hg] at h; cases h
  | ok cb1 => exact ⟨cb1, rfl⟩

lemma breakerInv_step (ft : Nat) (cb : CircuitBreaker) (now : ℚ)
    (op : Except Exc Nat) (hft : 0 < ft) (hinv : BreakerInv ft cb) :
    BreakerInv ft (cbCall cb now op).2.1 := by
  cases hg : cbGate cb now with
  | error e => simpa [cbCall, hg] using hinv
  | ok cb1 =>
    rw [cbCall_of_gate_ok cb now op cb1 hg]
    exact breakerInv_attempt ft cb1 now op hft
      (breakerInv_gate ft cb now cb1 hinv hg).1

/-- Every reachable breaker state satisfies the invariant. -/
lemma breakerInv_reachable (ft : Nat) (rt : ℚ) (cb : CircuitBreaker)
    (hft : 0 < ft) (h : Reachable ft rt cb) : BreakerInv ft cb := by
  induction h with
  | init => exact breakerInv_init ft rt hft
  | step cb now op _ ih => exact breakerInv_step ft cb now op hft ih

/-- C9: every breaker state reachable from the initial CLOSED state with
failureCount = 0 and lastFailureTime unset satisfies: OPEN implies
lastFailureTime is set, and CLOSED implies failureCount is strictly below
the (positive) failureThreshold. -/
theorem c9_reachable_state_invariant (ft : Nat) (rt : ℚ) (cb : CircuitBreaker)
    (hft : 0 < ft) (h : Reachable ft rt cb) :
    (cb.state = .OPEN → cb.last_failure_time.isSome = true) ∧
    (cb.state = .CLOSED → cb.failure_count < cb.failure_threshold) := by
  have hinv := breakerInv_reachable ft rt cb hft h
  refine ⟨hinv.2.1, fun hc => ?_⟩
  rw [hinv.1]
  exact hinv.2.2.1 hc

/-- Witness for C9 at the OPEN state reached after one failing call on a
breaker with threshold 1. -/
theorem c9_reachable_state_invariant_witness :
    ((cbCall (initBreaker 1 5) 0 (.error .timeout)).2.1.state = .OPEN →
      (cbCall (initBreaker 1 5) 0 (.error .timeout)).2.1.last_failure_time.isSome = true) ∧
    ((cbCall (initBreaker 1 5) 0 (.error .timeout)).2.1.state = .CLOSED →
      (cbCall (initBreaker 1 5) 0 (.error .timeout)).2.1.failure_count <
        (cbCall (initBreaker 1 5) 0 (.error .timeout)).2.1.failure_threshold) :=
  c9_reachable_state_invariant 1 5 _ (by decide)
    (Reachable.step (initBreaker 1 5) 0 (.error .timeout) Reachable.init)

/-- C10: on every reachable breaker state, being OPEN or HALF_OPEN implies
the failure counter has reached the threshold (it is never reset on the
OPEN-to-HALF_OPEN transition), and consequently every invoked failing call
from a non-CLOSED state (in particular every failed HALF_OPEN probe) leaves
the breaker OPEN. -/
theorem c10_counter_at_threshold_probe_reopens (ft : Nat) (rt : ℚ)
    (cb : CircuitBreaker) (hft : 0 < ft) (h : Reachable ft rt cb) :
    ((cb.state = .OPEN ∨ cb.state = .HALF_OPEN) →
      cb.failure_threshold ≤ cb.failure_count) ∧
    (∀ now op, cbFailed op = true → (cbCall cb now op).2.2 = true →
      cb.state ≠ .CLOSED → ((cbCall cb now op).2.1).state = .OPEN) := by
  have hinv := breakerInv_reachable ft rt cb hft h
  constructor
  · intro hs
    rw [hinv.1]
    apply hinv.2.2.2
    rcases hs with hs | hs <;> rw [hs] <;> intro hc <;> cases hc
  · intro now op hfail hinvk hne
    obtain ⟨cb1, hg⟩ := cbCall_invoked cb now op hinvk
    have hgate := breakerInv_gate ft cb now cb1 hinv hg
    have hfc : ft ≤ cb1.failure_count := by
      rw [hgate.2.1]
      exact hinv.2.2.2 hne
    have hcond : cb1.failure_threshold ≤ cb1.failure_count + 1 := by
      rw [hgate.1.1]; omega
    rw [cbCall_of_gate_ok cb now op cb1 hg, cbAttempt_fail cb1 now op hfail]
    simp [recordFailure, hcond]

/-- Witness for C10: the breaker with threshold 1 is OPEN with counter 1
after one failure, and a failed probe at time 10 (past the 5-unit recovery
window) leaves it OPEN. -/
theorem c10_counter_at_threshold_probe_reopens_witness :
    (cbCall (initBreaker 1 5) 0 (.error .timeout)).2.1.failure_threshold ≤
      (cbCall (initBreaker 1 5) 0 (.error .timeout)).2.1.failure_count ∧
    ((cbCall ((cbCall (initBreaker 1 5) 0 (.error .timeout)).2.1) 10
        (.error .timeout)).2.1).state = .OPEN :=
  ⟨(c10_counter_at_threshold_probe_reopens 1 5 _ (by decide)
      (Reachable.step (initBreaker 1 5) 0 (.error .timeout) Reachable.init)).1
      (Or.inl (by decide)),
   (c10_counter_at_threshold_probe_reopens 1 5 _ (by decide)
      (Reachable.step (initBreaker 1 5) 0 (.error .timeout) Reachable.init)).2
      10 (.error .timeout) (by decide)
      (by simp [cbCall, cbGate, cbAttempt, recordFailure, initBreaker]; norm_num)
      (by decide)⟩

/-- C2: every invoked failing call on a reachable breaker increments
failureCount by one, stamps lastFailureTime with the current time, ends
OPEN exactly when the new count has reached the threshold (the state is
unchanged otherwise), and re-raises the underlying failure to the caller. -/
theorem c2_failure_bookkeeping (ft : Nat) (rt : ℚ) (cb : CircuitBreaker)
    (hreach : Reachable ft rt cb) (hft : 0 < ft) (now : ℚ)
    (op : Except Exc Nat) (hfail : cbFailed op = true)
    (hinvk : (cbCall cb now op).2.2 = true) :
    ((cbCall cb now op).2.1).failure_count = cb.failure_count + 1 ∧
    ((cbCall cb now op).2.1).last_failure_time = some now ∧
    (((cbCall cb now op).2.1).state = .OPEN ↔
      cb.failure_threshold ≤ cb.failure_count + 1) ∧
    (cb.failure_count + 1 < cb.failure_threshold →
      ((cbCall cb now op).2.1).state = cb.state) ∧
    (cbCall cb now op).1 = .error (failExc op) := by
  have hinv := breakerInv_reachable ft rt cb hft hreach
  obtain ⟨cb1, hg⟩ := cbCall_invoked cb now op hinvk
  have hgate := breakerInv_gate ft cb now cb1 hinv hg
  have hfc1 : cb1.failure_count = cb.failure_count := hgate.2.1
  have hft1 : cb1.failure_threshold = cb.failure_threshold := by
    rw [hgate.1.1, hinv.1]
  have hstate : (recordFailure cb1 now).state =
      if cb1.failure_threshold ≤ cb1.failure_count + 1 then .OPEN
      else cb1.state := rfl
  rw [cbCall_of_gate_ok cb now op cb1 hg, cbAttempt_fail cb1 now op hfail]
  refine ⟨?_, rfl, ?_, ?_, rfl⟩
  · show cb1.failure_count + 1 = cb.failure_count + 1
    rw [hfc1]
  · show (recordFailure cb1 now).state = .OPEN ↔
      cb.failure_threshold ≤ cb.failure_count + 1
    rw [hstate]
    by_cases hcond : cb1.failure_threshold ≤ cb1.failure_count + 1
    · rw [if_pos hcond]
      rw [hft1, hfc1] at hcond
      exact iff_of_true rfl hcond
    · rw [if_neg hcond]
      rw [hft1, hfc1] at hcond
      exact iff_of_false hgate.2.2.1 hcond
  · intro hlt
    show (recordFailure cb1 now).state = cb.state
    have hcond : ¬ (cb1.failure_threshold ≤ cb1.failure_count + 1) := by
      rw [hft1, hfc1]; omega
    rw [hstate, if_neg hcond]
    rcases cbGate_ok cb now cb1 hg with ⟨_, rfl⟩ | ⟨hop, rfl, _⟩
    · rfl
    · exfalso
      have h1 : ft ≤ cb.failure_count :=
        hinv.2.2.2 (by rw [hop]; intro hx; cases hx)
      have h2 : cb.failure_count + 1 < ft := by rw [← hinv.1]; exact hlt
      omega

/-- Witness for C2: the first failing call on a fresh breaker with
threshold 2 at time 1. -/
theorem c2_failure_bookkeeping_witness :
    ((cbCall (initBreaker 2 10) 1 (.error .timeout)).2.1).failure_count =
      (initBreaker 2 10).failure_count + 1 ∧
    ((cbCall (initBreaker 2 10) 1 (.error .timeout)).2.1).last_failure_time = some 1 ∧
    (((cbCall (initBreaker 2 10) 1 (.error .timeout)).2.1).state = .OPEN ↔
      (initBreaker 2 10).failure_threshold ≤ (initBreaker 2 10).failure_count + 1) ∧
    ((initBreaker 2 10).failure_count + 1 < (initBreaker 2 10).failure_threshold →
      ((cbCall (initBreaker 2 10) 1 (.error .timeout)).2.1).state =
        (initBreaker 2 10).state) ∧
    (cbCall (initBreaker 2 10) 1 (.error .timeout)).1 =
      .error (failExc (.error .timeout)) :=
  c2_failure_bookkeeping 2 10 (initBreaker 2 10) Reachable.init (by decide) 1
    (.error .timeout) (by decide) (by decide)

/-- C3: whenever the gate lets a call through (the breaker is not OPEN, or
it is OPEN with the recovery window expired — in which case the state first
moves to HALF_OPEN), the underlying operation is invoked exactly once, and
if it succeeds with a status below 500 the breaker ends CLOSED with
failureCount 0 and the response is returned. -/
theorem c3_recovery_probe_closes (cb : CircuitBreaker) (now : ℚ)
    (op : Except Exc Nat)
    (hready : cb.state ≠ .OPEN ∨
      ∃ t, cb.last_failure_time = some t ∧ cb.recovery_timeout < now - t) :
    (cbCall cb now op).2.2 = true ∧
    (cb.state = .OPEN → cbGate cb now = .ok { cb with state := .HALF_OPEN }) ∧
    (∀ s, op = .ok s → s < 500 →
      cbCall cb now op =
        (.ok s, { cb with failure_count := 0, state := .CLOSED }, true)) := by
  by_cases hst : cb.state = .OPEN
  · rcases hready with h | ⟨t, hl, hgt⟩
    · exact absurd hst h
    · have hgate : cbGate cb now = .ok { cb with state := .HALF_OPEN } := by
        simp [cbGate, hst, hl, hgt]
      have hc := cbCall_of_gate_ok cb now op { cb with state := .HALF_OPEN } hgate
      refine ⟨by rw [hc], fun _ => hgate, ?_⟩
      intro s hs hlt
      subst hs
      have hns : ¬ (500 ≤ s) := by omega
      have hat : cbAttempt { cb with state := .HALF_OPEN } now (.ok s) =
          (.ok s, { cb with failure_count := 0, state := .CLOSED }) := by
        simp [cbAttempt, hns]
      rw [hc, hat]
  · have hgate := cbGate_not_open cb now hst
    have hc := cbCall_of_gate_ok cb now op cb hgate
    refine ⟨by rw [hc], fun h => absurd h hst, ?_⟩
    intro s hs hlt
    subst hs
    have hns : ¬ (500 ≤ s) := by omega
    have hat : cbAttempt cb now (.ok s) =
        (.ok s, { cb with failure_count := 0, state := .CLOSED }) := by
      simp [cbAttempt, hns]
    rw [hc, hat]

/-- Witness for C3: a breaker that is OPEN with counter 2 and last failure
at time 0 is probed at time 6 (recovery timeout 5); the probe succeeds with
status 200 and the breaker closes with the counter reset. -/
theorem c3_recovery_probe_closes_witness :
    cbCall ⟨2, 5, 2, .OPEN, some 0⟩ 6 (.ok 200) =
      (.ok 200, ⟨2, 5, 0, .CLOSED, some 0⟩, true) :=
  (c3_recovery_probe_closes ⟨2, 5, 2, .OPEN, some 0⟩ 6 (.ok 200)
    (Or.inr ⟨0, rfl, by norm_num⟩)).2.2 200 rfl (by norm_num)

/-! ## Helper lemmas about the retry loop -/

lemma retryGo_ok {α : Type} (op : Nat → Except Exc α) (attempt left : Nat)
    (a : α) (hop : op attempt = .ok a) :
    retryGo op attempt (left + 1) = (.ok a, 1) := by
  simp [retryGo, hop]

lemma retryGo_err_last {α : Type} (op : Nat → Except Exc α) (attempt : Nat)
    (e : Exc) (hop : op attempt = .error e) (hr : retryable e = true) :
    retryGo op attempt 1 = (.error e, 1) := by
  simp [retryGo, hop, hr]

lemma retryGo_err_step {α : Type} (op : Nat → Except Exc α) (attempt l : Nat)
    (e : Exc) (hop : op attempt = .error e) (hr : retryable e = true) :
    retryGo op attempt (l + 2) =
      ((retryGo op (attempt + 1) (l + 1)).1,
        (retryGo op (attempt + 1) (l + 1)).2 + 1) := by
  conv_lhs => rw [retryGo]
  simp [hop, hr]

lemma retryGo_err_stop {α : Type} (op : Nat → Except Exc α) (attempt left : Nat)
    (e : Exc) (hop : op attempt = .error e) (hr : retryable e = false) :
    retryGo op attempt (left + 1) = (.error e, 1) := by
  cases left <;> simp [retryGo, hop, hr]

/-- The loop never invokes the operation more often than it has budget. -/
lemma retryGo_count_le {α : Type} (op : Nat → Except Exc α) :
    ∀ left attempt, (retryGo op attempt left).2 ≤ left := by
  intro left
  induction left with
  | zero => intro _; simp [retryGo]
  | succ l ih =>
    intro attempt
    cases hop : op attempt with
    | ok a =>
      rw [retryGo_ok op attempt l a hop]
      show 1 ≤ l + 1
      omega
    | error e =>
      cases hr : retryable e with
      | false =>
        rw [retryGo_err_stop op attempt l e hop hr]
        show 1 ≤ l + 1
        omega
      | true =>
        cases l with
        | zero =>
          show (retryGo op attempt 1).2 ≤ 1
          rw [retryGo_err_last op attempt e hop hr]
        | succ l2 =>
          show (retryGo op attempt (l2 + 2)).2 ≤ l2 + 2
          rw [retryGo_err_step op attempt l2 e hop hr]
          have h := ih (attempt + 1)
          show (retryGo op (attempt + 1) (l2 + 1)).2 + 1 ≤ l2 + 2
          omega

/-- When every attempt in the budget fails with a retryable error, the loop
spends its whole budget and ends with the last attempt's own error. -/
lemma retryGo_all_fail {α : Type} (op : Nat → Except Exc α) :
    ∀ left attempt,
    (∀ i, attempt ≤ i → i < attempt + left + 1 →
      ∃ e, op i = .error e ∧ retryable e = true) →
    retryGo op attempt (left + 1) = (op (attempt + left), left + 1) := by
  intro left
  induction left with
  | zero =>
    intro attempt hfail
    obtain ⟨e, hop, hr⟩ := hfail attempt (le_refl _) (by omega)
    show retryGo op attempt 1 = (op (attempt + 0), 1)
    rw [retryGo_err_last op attempt e hop hr]
    rw [Nat.add_zero, hop]
  | succ l ih =>
    intro attempt hfail
    obtain ⟨e, hop, hr⟩ := hfail attempt (le_refl _) (by omega)
    show retryGo op attempt (l + 2) = (op (attempt + (l + 1)), l + 2)
    rw [retryGo_err_step op attempt l e hop hr]
    have hrec := ih (attempt + 1) (fun i h1 h2 => hfail i (by omega) (by omega))
    rw [hrec]
    have hx : attempt + 1 + l = attempt + (l + 1) := by omega
    rw [hx]

/-- If the first d attempts fail retryably and attempt number d succeeds
within budget, the loop returns that success after exactly d + 1 calls. -/
lemma retryGo_success_at {α : Type} (op : Nat → Except Exc α) :
    ∀ d attempt left (a : α), d < left → op (attempt + d) = .ok a →
    (∀ i, attempt ≤ i → i < attempt + d →
      ∃ e, op i = .error e ∧ retryable e = true) →
    retryGo op attempt left = (.ok a, d + 1) := by
  intro d
  induction d with
  | zero =>
    intro attempt left a hd hok _
    cases left with
    | zero => omega
    | succ l =>
      have h := retryGo_ok op attempt l a hok
      simpa using h
  | succ dd ih =>
    intro attempt left a hd hok hfail
    cases left with
    | zero => omega
    | succ l =>
      cases l with
      | zero => omega
      | succ l2 =>
        obtain ⟨e, hop, hr⟩ := hfail attempt (le_refl _) (by omega)
        show retryGo op attempt (l2 + 2) = (.ok a, dd + 2)
        rw [retryGo_err_step op attempt l2 e hop hr]
        have hok2 : op (attempt + 1 + dd) = .ok a := by
          have hx : attempt + 1 + dd = attempt + (dd + 1) := by omega
          rw [hx]; exact hok
        have hrec := ih (attempt + 1) (l2 + 1) a (by omega) hok2
          (fun i h1 h2 => hfail i (by omega) (by omega))
        rw [hrec]

/-- C4 (amended): the wrapper invokes the operation at most maxRetries + 1
times; when every attempt fails with a retryable error it invokes it exactly
maxRetries + 1 times and then propagates the last underlying failure itself
to the caller (the code has no RetryExhaustedError wrapper); a success at
any attempt k within the budget is returned immediately after exactly k + 1
invocations. -/
theorem c4_retry_count_and_propagation (max_retries : Nat)
    (op : Nat → Except Exc Nat) :
    (retryExec op max_retries).2 ≤ max_retries + 1 ∧
    ((∀ i, i ≤ max_retries → ∃ e, op i = .error e ∧ retryable e = true) →
      retryExec op max_retries = (op max_retries, max_retries + 1)) ∧
    (∀ k a, k ≤ max_retries → op k = .ok a →
      (∀ i, i < k → ∃ e, op i = .error e ∧ retryable e = true) →
      retryExec op max_retries = (.ok a, k + 1)) := by
  refine ⟨retryGo_count_le op (max_retries + 1) 0, ?_, ?_⟩
  · intro hfail
    have h := retryGo_all_fail op max_retries 0
      (fun i _ h2 => hfail i (by omega))
    simpa [retryExec] using h
  · intro k a hk hok hfail
    have h := retryGo_success_at op k 0 (max_retries + 1) a (by omega)
      (by simpa using hok) (fun i _ h2 => hfail i (by omega))
    simpa [retryExec] using h

/-- C4 counterexample: with maxRetries = 3 and an operation that always
times out, the wrapper makes exactly 4 invocations but the propagated
failure is the bare Timeout itself, not a RetryExhaustedError wrapping it. -/
theorem c4_no_retry_exhausted_wrapper :
    retryExec (fun _ => (.error .timeout : Except Exc Nat)) 3 =
      (.error .timeout, 4) ∧
    (retryExec (fun _ => (.error .timeout : Except Exc Nat)) 3).1 ≠
      .error (.retryExhausted .timeout) := by
  exact ⟨by decide, by decide⟩

/-- Witness for C4 at maxRetries = 3: an always-timing-out operation is
invoked exactly 4 times and its timeout propagated; an operation succeeding
at attempt 2 after two transport errors returns that success after 3
invocations. -/
theorem c4_retry_count_and_propagation_witness :
    (retryExec (fun _ => (.error .timeout : Except Exc Nat)) 3).2 ≤ 4 ∧
    retryExec (fun _ => (.error .timeout : Except Exc Nat)) 3 =
      (.error .timeout, 4) ∧
    retryExec
      (fun i => if i < 2 then (.error .transportError : Except Exc Nat)
        else .ok 200) 3 = (.ok 200, 3) :=
  ⟨(c4_retry_count_and_propagation 3 (fun _ => .error .timeout)).1,
   (c4_retry_count_and_propagation 3 (fun _ => .error .timeout)).2.1
     (fun i _ => ⟨.timeout, rfl, rfl⟩),
   (c4_retry_count_and_propagation 3
       (fun i => if i < 2 then .error .transportError else .ok 200)).2.2
     2 200 (by omega) (by norm_num)
     (fun i hi => ⟨.transportError, by simp [hi], rfl⟩)⟩

/-- C5 counterexample: at baseDelay = 1, maxDelay = 8, retry number k = 5
(admissible whenever maxRetries ≥ 5) and jitter 0, the computed delay is
min(1 * 2^4, 8) + 0 = 8, which violates the claimed lower bound
baseDelay * 2^(k-1) = 16. -/
theorem c5_lower_bound_fails_beyond_cap :
    ¬ ((1 : ℚ) * 2 ^ (5 - 1) ≤ backoffDelay 1 8 5 0) := by
  norm_num [backoffDelay]

/-- C5 (amended): for jitter in [0, 1/2] the delay before retry k equals
min(baseDelay * 2^(k-1), maxDelay) + jitter and lies between
min(baseDelay * 2^(k-1), maxDelay) and that same capped value + 1/2; the
spec's uncapped lower bound baseDelay * 2^(k-1) holds whenever the
exponential term does not exceed maxDelay. -/
theorem c5_delay_formula_and_bounds (base_delay max_delay : ℚ) (k : Nat)
    (jitter : ℚ) (hj0 : 0 ≤ jitter) (hj1 : jitter ≤ 1 / 2) :
    backoffDelay base_delay max_delay k jitter =
      min (base_delay * 2 ^ (k - 1)) max_delay + jitter ∧
    min (base_delay * 2 ^ (k - 1)) max_delay ≤
      backoffDelay base_delay max_delay k jitter ∧
    backoffDelay base_delay max_delay k jitter ≤
      min (base_delay * 2 ^ (k - 1)) max_delay + 1 / 2 ∧
    (base_delay * 2 ^ (k - 1) ≤ max_delay →
      base_delay * 2 ^ (k - 1) ≤ backoffDelay base_delay max_delay k jitter) := by
  refine ⟨rfl, ?_, ?_, ?_⟩
  · unfold backoffDelay; linarith
  · unfold backoffDelay; linarith
  · intro hle
    unfold backoffDelay
    rw [min_eq_left hle]
    linarith

/-- Witness for C5 at baseDelay = 1, maxDelay = 8, k = 2, jitter = 1/4. -/
theorem c5_delay_formula_and_bounds_witness :
    backoffDelay 1 8 2 (1 / 4) = min ((1 : ℚ) * 2 ^ (2 - 1)) 8 + 1 / 4 ∧
    min ((1 : ℚ) * 2 ^ (2 - 1)) 8 ≤ backoffDelay 1 8 2 (1 / 4) ∧
    backoffDelay 1 8 2 (1 / 4) ≤ min ((1 : ℚ) * 2 ^ (2 - 1)) 8 + 1 / 2 ∧
    ((1 : ℚ) * 2 ^ (2 - 1) ≤ 8 →
      (1 : ℚ) * 2 ^ (2 - 1) ≤ backoffDelay 1 8 2 (1 / 4)) :=
  c5_delay_formula_and_bounds 1 8 2 (1 / 4) (by norm_num) (by norm_num)

/-- C6: the tier-3 path is shed exactly when the current system load is
strictly above the threshold 80; when shed, load_recommendations returns
the degraded (shed) output at once with the underlying operation never
invoked and the app state — in particular the circuit breaker — untouched. -/
theorem c6_load_shedding_pure_gate (app : App) (op : Nat → Except Exc Nat) :
    ((∃ a n, load_recommendations app op = .ok (.shed, a, n)) ↔
      shouldShed app.system_load = true) ∧
    (shouldShed app.system_load = true ↔ 80 < app.system_load) ∧
    (80 < app.system_load →
      load_recommendations app op = .ok (.shed, app, 0)) := by
  have hiff : shouldShed app.system_load = true ↔ 80 < app.system_load := by
    simp [shouldShed]
  by_cases hs : shouldShed app.system_load = true
  · have hrec : load_recommendations app op = .ok (.shed, app, 0) := by
      simp [load_recommendations, hs]
    exact ⟨iff_of_true ⟨app, 0, hrec⟩ hs, hiff, fun _ => hrec⟩
  · have hs2 : shouldShed app.system_load = false := by
      simpa using hs
    refine ⟨iff_of_false ?_ hs, hiff, fun hl => absurd (hiff.mpr hl) hs⟩
    rintro ⟨a, n, h⟩
    rcases hr : retryExec op 3 with ⟨res, n2⟩
    cases res with
    | ok s => simp [load_recommendations, hs2, hr] at h
    | error e => simp [load_recommendations, hs2, hr] at h

/-- Witness for C6: with system load 95 and an operation that would
succeed, the recommendations are shed with zero invocations and the
breaker state untouched. -/
theorem c6_load_shedding_pure_gate_witness :
    load_recommendations ⟨initBreaker 2 5, 95⟩ (fun _ => .ok 200) =
      .ok (.shed, ⟨initBreaker 2 5, 95⟩, 0) :=
  (c6_load_shedding_pure_gate ⟨initBreaker 2 5, 95⟩ (fun _ => .ok 200)).2.2
    (by norm_num)

/-- C7: for every transport behavior and breaker state, load_reviews and
load_recommendations return normally — load_reviews resolves to live or
fallback content and load_recommendations to shed, live or degraded
output; no exception crosses the tiered-client boundary. -/
theorem c7_tier2_tier3_never_raise (app : App) (now : ℚ)
    (op : Except Exc Nat) (rop : Nat → Except Exc Nat) :
    ((∃ s a, load_reviews app now op = .ok (.live s, a)) ∨
      (∃ a, load_reviews app now op = .ok (.fallback, a))) ∧
    ((∃ a n, load_recommendations app rop = .ok (.shed, a, n)) ∨
      (∃ s a n, load_recommendations app rop = .ok (.live s, a, n)) ∨
      (∃ a n, load_recommendations app rop = .ok (.degraded, a, n))) := by
  constructor
  · rcases hcb : cbCall app.breaker now op with ⟨r, cb1, b⟩
    cases r with
    | ok s =>
      exact Or.inl ⟨s, { app with breaker := cb1 }, by simp [load_reviews, hcb]⟩
    | error e =>
      exact Or.inr ⟨{ app with breaker := cb1 }, by simp [load_reviews, hcb]⟩
  · by_cases hs : shouldShed app.system_load = true
    · exact Or.inl ⟨app, 0, by simp [load_recommendations, hs]⟩
    · have hs2 : shouldShed app.system_load = false := by simpa using hs
      rcases hr : retryExec rop 3 with ⟨res, n⟩
      cases res with
      | ok s =>
        exact Or.inr (Or.inl
          ⟨s, app, n, by simp [load_recommendations, hs2, hr]⟩)
      | error e =>
        exact Or.inr (Or.inr
          ⟨app, n, by simp [load_recommendations, hs2, hr]⟩)

/-- C8 counterexample: a transport failure of the Tier 1 direct call is
absorbed inside view_product: the method returns normally carrying only the
critical alert and does not re-raise the error to its caller. -/
theorem c8_tier1_error_absorbed :
    view_product (.error .transportError) = .ok .criticalAlert ∧
    view_product (.error .transportError) ≠ .error .transportError :=
  ⟨rfl, by decide⟩

/-- C8 (amended): every Tier 1 failure is caught inside view_product; the
failure is reported as the critical top-level alert (no live data and no
substituted fallback content), but the exception itself never reaches the
caller. -/
theorem c8_tier1_critical_alert (e : Exc) :
    view_product (.error e) = .ok .criticalAlert := rfl
